import Mathlib

/-!
Verification development for the `manual_ia` repository (`app.py`): a
Streamlit question-answering assistant over PDF manuals.

The file shallowly embeds the program's data and control flow:

* the text chunker configuration (`RecursiveCharacterTextSplitter` with
  `chunk_size=1000`, `chunk_overlap=100` and the default separator list
  `["\n\n", "\n", " ", ""]`, `keep_separator=True`), translated from the
  library's `_split_text` / `_merge_splits` / `_split_text_with_regex`
  algorithm that the app invokes at `app.py` lines 56-57;
* the bootstrap function `carregar_e_processar_documentos` (lines 29-67)
  with its disk-existence branch and its `@st.cache_resource` memoization;
* the question-answering script body (lines 70-110), with its `try/except`
  boundary, the `k=3` retriever, and the sources rendering.

External collaborators (Chroma persistence and similarity search, the
Gemini embedding/chat models, Streamlit's cache) are modelled from the
spec's description of them as opaque collaborators: persistence is a
round-trip, retrieval returns the k best-scoring stored chunks under an
arbitrary scoring oracle, and generation is an arbitrary function from
prompt to text.  Observable behaviour (UI messages, external calls) is
recorded as a list of events.
-/

namespace ManualIA

/-- A LangChain `Document`: the page text plus the only two metadata keys the
app ever reads (`'source'` and `'page'`, cf. `app.py` line 104).  A missing
key is `none`, mirroring `dict.get` with a default. -/
structure Document where
  page_content : List Char
  metaSource : Option String
  metaPage : Option Nat
deriving DecidableEq

/-! ## Text splitter

Translation of `RecursiveCharacterTextSplitter.split_text` as configured at
`app.py` line 56: `chunk_size=1000`, `chunk_overlap=100`, length function
`len`, `keep_separator=True`, separators `["\n\n", "\n", " ", ""]`.  Because
`keep_separator` is true, the separator passed to `_merge_splits` is always
the empty string, so the merge step below is specialised to an empty
joining separator (`separator_len = 0`). -/

/-- Sum of the lengths of a list of character lists (the running `total`
of `_merge_splits`). -/
def lenSum (l : List (List Char)) : Nat := (l.map List.length).sum

/-- Python `str.strip()`: drop whitespace from both ends. -/
def stripChars (l : List Char) : List Char :=
  ((l.dropWhile Char.isWhitespace).reverse.dropWhile Char.isWhitespace).reverse

/-- Translation of `TextSplitter._join_docs(docs, "")`: concatenate, strip, and return
`None` when the result is empty. -/
def joinDocs (cur : List (List Char)) : Option (List Char) :=
  let text := stripChars cur.flatten
  if text = [] then none else some text

/-- The inner `while` loop of `_merge_splits` (separator length 0): starting
from `total` (the running sum of `cur`'s lengths), pop splits from the front
while `total > chunk_overlap` or (`total + dlen > chunk_size` and
`total > 0`). -/
def popWhile (size overlap dlen : Nat) : Nat → List (List Char) → Nat × List (List Char)
  | total, [] => (total, [])
  | total, c :: cs =>
    if overlap < total ∨ (size < total + dlen ∧ 0 < total) then
      popWhile size overlap dlen (total - c.length) cs
    else (total, c :: cs)

/-- State of the `for d in splits` loop of `_merge_splits`: emitted docs,
the current window `cur`, and the running total of `cur`'s lengths. -/
structure MergeState where
  docs : List (List Char)
  cur : List (List Char)
  total : Nat
deriving DecidableEq

/-- One iteration of the `for d in splits` loop of `_merge_splits`
(with empty joining separator). -/
def mergeStep (size overlap : Nat) (st : MergeState) (d : List Char) : MergeState :=
  let dlen := d.length
  if size < st.total + dlen then
    if st.cur = [] then
      { docs := st.docs, cur := [d], total := dlen }
    else
      let docs1 := match joinDocs st.cur with
        | some doc => st.docs ++ [doc]
        | none => st.docs
      let pr := popWhile size overlap dlen st.total st.cur
      { docs := docs1, cur := pr.2 ++ [d], total := pr.1 + dlen }
  else
    { docs := st.docs, cur := st.cur ++ [d], total := st.total + dlen }

/-- Translation of `TextSplitter._merge_splits(splits, "")`. -/
def mergeSplits (size overlap : Nat) (splits : List (List Char)) : List (List Char) :=
  let fin := splits.foldl (mergeStep size overlap) ⟨[], [], 0⟩
  match joinDocs fin.cur with
  | some doc => fin.docs ++ [doc]
  | none => fin.docs

/-- Python substring test `_s in text` for a non-empty literal separator. -/
def containsSeq (sep : List Char) : List Char → Bool
  | [] => sep.isPrefixOf []
  | c :: cs => sep.isPrefixOf (c :: cs) || containsSeq sep cs

/-- Python `re.split` on a literal separator (fuel-driven so that it reduces in the
kernel; the fuel is the text length, always sufficient).  Produces the
pieces between non-overlapping leftmost occurrences of `sep`, keeping empty
pieces, exactly like `re.split` with no capture group. -/
def splitOnFuel (sep : List Char) : Nat → List Char → List (List Char)
  | _, [] => [[]]
  | 0, text => [text]
  | fuel + 1, c :: cs =>
    if sep ≠ [] ∧ sep.isPrefixOf (c :: cs) then
      [] :: splitOnFuel sep fuel ((c :: cs).drop sep.length)
    else
      match splitOnFuel sep fuel cs with
      | [] => [[c]]
      | p :: ps => (c :: p) :: ps

/-- Python `re.split(sep, text)` for a literal separator. -/
def splitOnList (sep : List Char) (text : List Char) : List (List Char) :=
  splitOnFuel sep text.length text

/-- Translation of `_split_text_with_regex(text, separator, keep_separator=True)` for the
app's literal (regex-escaped) separators: split on the separator, glue each
separator occurrence onto the piece that follows it, and drop empty pieces;
for the empty separator, `list(text)`. -/
def splitWithSep (sep : List Char) (text : List Char) : List (List Char) :=
  if sep = [] then text.map (fun c => [c])
  else
    match splitOnList sep text with
    | [] => []
    | p :: ps => (p :: ps.map (fun r => sep ++ r)).filter (fun s => s ≠ [])

/-- The separator-selection loop at the top of `_split_text`: take the first
separator that is empty or occurs in the text; `new_separators` is the
remaining suffix (empty when the empty separator was selected).  The app's
separator lists always end with the empty separator, so the loop always
selects one. -/
def chooseSep (text : List Char) : List (List Char) → List Char × List (List Char)
  | [] => ([], [])
  | s :: rest =>
    if s = [] then ([], [])
    else if containsSeq s text then (s, rest)
    else chooseSep text rest

/-- The body of the `for s in splits` loop of `_split_text`: accumulate
splits shorter than `chunk_size` into the pending-good list, and flush it
through `_merge_splits` when an oversize split appears; the oversize split
is recursively re-split when separators remain, else appended whole.
The accumulator is `(final_chunks, _good_splits)`. -/
def splitStep (size overlap : Nat) (newSeps : List (List Char))
    (recur : List Char → List (List Char))
    (acc : List (List Char) × List (List Char)) (s : List Char) :
    List (List Char) × List (List Char) :=
  if s.length < size then (acc.1, acc.2 ++ [s])
  else
    let fin := if acc.2 = [] then acc.1 else acc.1 ++ mergeSplits size overlap acc.2
    if newSeps = [] then (fin ++ [s], []) else (fin ++ recur s, [])

/-- Translation of `RecursiveCharacterTextSplitter._split_text(text, separators)`.  The
recursion is driven by fuel; each recursive call strictly shrinks the
separator list, so fuel `separators.length` is always sufficient. -/
def splitTextFuel (size overlap : Nat) : Nat → List (List Char) → List Char → List (List Char)
  | 0, _, text => [text]
  | fuel + 1, seps, text =>
    let co := chooseSep text seps
    let splits := splitWithSep co.1 text
    let acc := splits.foldl (splitStep size overlap co.2 (splitTextFuel size overlap fuel co.2)) ([], [])
    if acc.2 = [] then acc.1 else acc.1 ++ mergeSplits size overlap acc.2

/-- The method `split_text(text)` for a splitter with the given size, overlap and
separator list. -/
def split_text (size overlap : Nat) (seps : List (List Char)) (text : List Char) :
    List (List Char) :=
  splitTextFuel size overlap seps.length seps text

/-- The default separator list of `RecursiveCharacterTextSplitter`:
`["\n\n", "\n", " ", ""]`. -/
def defaultSeparators : List (List Char) := [['\n', '\n'], ['\n'], [' '], []]

/-- The method `divisor_texto.split_text` for the splitter built at `app.py` line 56:
`RecursiveCharacterTextSplitter(chunk_size=1000, chunk_overlap=100)`. -/
def divisor_texto_split_text (text : List Char) : List (List Char) :=
  split_text 1000 100 defaultSeparators text

/-- The call `divisor_texto.split_documents(documentos)` (`app.py` line 57): split
each page's text and give every resulting chunk the page's metadata. -/
def split_documents (docs : List Document) : List Document :=
  docs.flatMap (fun d =>
    (divisor_texto_split_text d.page_content).map
      (fun t => { page_content := t, metaSource := d.metaSource, metaPage := d.metaPage }))

/-! ## Observable events

Each script run is recorded as a list of events: Streamlit UI elements the
script renders, and the external effects it performs (reading the `docs`
directory, splitting, persisting the index, constructing the chat model,
retrieving, generating). -/

inductive Event where
  | stInfo (msg : String)
  | stSuccess (msg : String)
  | stError (msg : String)
  | stWarning (msg : String)
  | stHeader (msg : String)
  | stWrite (msg : String)
  | stSourceInfo (msg : String)
  | stExcerpt (msg : String)
  | loadPDFs
  | splitDocs
  | persistIndex
  | constructLLM
  | retrieveCall
  | generateCall
deriving DecidableEq

/-- The success message at `app.py` line 65; its count argument is
`len(documentos)`, the number of loaded page-level documents. -/
def novoBancoMsg (n : Nat) : String :=
  "Novo banco de dados criado e salvo com " ++ toString n ++ " documento(s)!"

/-! ## Bootstrap (`carregar_e_processar_documentos`, `app.py` lines 29-67)

The persisted Chroma directory is modelled as `Option (List Document)`:
`none` when the directory `banco_vetorial_chroma` does not exist, and
`some contents` when it exists and holds the given chunk documents.
Modelled from the spec: opening an existing Chroma directory yields a
handle over exactly the persisted chunks (persistence is a round-trip),
and `Chroma.from_documents` persists exactly the chunks it is given. -/

/-- The body of `carregar_e_processar_documentos` (uncached).  `pages` is
what `PyPDFDirectoryLoader("docs").load()` would return; `disk` is the
state of the `banco_vetorial_chroma` directory.  Returns the vector-store
handle (its chunk contents), the new disk state, and the events. -/
def carregarBody (pages : List Document) (disk : Option (List Document)) :
    List Document × Option (List Document) × List Event :=
  match disk with
  | some contents =>
      (contents, some contents,
       [Event.stInfo "Carregando banco de dados de vetores existente...",
        Event.stSuccess "Banco de dados carregado com sucesso!"])
  | none =>
      let documentos := pages
      let textos_divididos := split_documents documentos
      (textos_divididos, some textos_divididos,
       [Event.stInfo "Criando um novo banco de dados de vetores...",
        Event.loadPDFs, Event.splitDocs, Event.persistIndex,
        Event.stSuccess (novoBancoMsg documentos.length)])

/-- Process-lifetime state: the `@st.cache_resource` slot for
`carregar_e_processar_documentos`, and the persisted directory. -/
structure AppState where
  cache : Option (List Document)
  disk : Option (List Document)
deriving DecidableEq

/-- The function `carregar_e_processar_documentos` as called through `@st.cache_resource`
(`app.py` line 28): on a cache hit the memoized handle is returned and the
body does not run; on a miss the body runs (or fails, when an external call
fails, in which case nothing is cached and no state changes).  The returned
`Bool` records whether the body executed. -/
def carregar_e_processar_documentos (pages : List Document) (fail : Bool) (failMsg : String)
    (s : AppState) : Except String (List Document × AppState × List Event × Bool) :=
  match s.cache with
  | some v => Except.ok (v, s, [], false)
  | none =>
      if fail then Except.error failMsg
      else
        let r := carregarBody pages s.disk
        Except.ok (r.1, { cache := some r.1, disk := r.2.1 }, r.2.2, true)

/-! ## Answering pipeline (`app.py` lines 79-105) -/

/-- Insert a document into a list sorted by descending score (stable:
an incoming document goes after existing ones with score ≥ its own). -/
def insertByScore (score : Document → Nat) (d : Document) :
    List Document → List Document
  | [] => [d]
  | x :: xs =>
      if score d ≤ score x then x :: insertByScore score d xs
      else d :: x :: xs

/-- Rank the index's chunks by descending similarity score. -/
def rankByScore (score : Document → Nat) : List Document → List Document
  | [] => []
  | x :: xs => insertByScore score x (rankByScore score xs)

/-- Modelled from the spec: the retriever built at `app.py` line 90
(`banco_de_vetores.as_retriever(search_kwargs={"k": 3})`, here with `k`
a parameter) returns the `k` chunks of the persisted index with highest
similarity to the question, under an arbitrary scoring oracle. -/
def retrieve (score : String → Document → Nat) (k : Nat) (index : List Document)
    (q : String) : List Document :=
  (rankByScore (score q) index).take k

/-- The "stuff" prompt: the retrieved chunks' text concatenated with the
question. -/
def stuffPrompt (docsRetrieved : List Document) (q : String) : String :=
  String.mk (docsRetrieved.flatMap Document.page_content) ++ q

/-- The call `qa_chain` applied to the question, for the chain built at `app.py`
lines 87-95: `RetrievalQA.from_chain_type(..., chain_type="stuff",
retriever=..., return_source_documents=True)` with `k = 3`.  Returns the
`result` text and the `source_documents` list.  Modelled from the spec:
generation is an arbitrary function `gen` from prompt to text. -/
def qa_chain_run (score : String → Document → Nat) (gen : String → String)
    (index : List Document) (q : String) : String × List Document :=
  let docsRetrieved := retrieve score 3 index q
  (gen (stuffPrompt docsRetrieved q), docsRetrieved)

/-- Python `os.path.basename`: everything after the last `/` (scan the characters,
restarting the accumulator at each `/`).  Note `basename "N/A" = "A"`. -/
def basename (s : String) : String :=
  String.mk (s.data.foldl (fun acc c => if c = '/' then [] else acc ++ [c]) [])

/-- Display of the `page` metadata value inside the f-string at line 104:
`doc.metadata.get('page', 'N/A')`. -/
def pageDisplay : Option Nat → String
  | some n => toString n
  | none => "N/A"

/-- The source line rendered at `app.py` line 104:
`f"Fonte: {os.path.basename(doc.metadata.get('source', 'N/A'))}, Página:
{doc.metadata.get('page', 'N/A')}"`. -/
def renderSource (d : Document) : String :=
  "Fonte: " ++ basename (d.metaSource.getD "N/A") ++ ", Página: " ++ pageDisplay d.metaPage

/-- The excerpt rendered at `app.py` line 105:
`f"> {doc.page_content[:250]}..."`. -/
def excerptLine (d : Document) : String :=
  "> " ++ String.mk (d.page_content.take 250) ++ "..."

/-- The events rendered for one answer (`app.py` lines 98-105): header,
answer text, then one source line and one excerpt per cited document. -/
def answerEvents (res : String × List Document) : List Event :=
  [Event.stHeader "Resposta:", Event.stWrite res.1] ++
  res.2.flatMap (fun d => [Event.stSourceInfo (renderSource d), Event.stExcerpt (excerptLine d)])

/-- The `except Exception` handler at `app.py` lines 107-110: two error
boxes (the second carrying the raw underlying message) and the warning
naming the `GOOGLE_API_KEY` credential. -/
def errorEvents (e : String) : List Event :=
  [Event.stError "Ocorreu um erro ao configurar a aplicação.",
   Event.stError ("Detalhe do erro: " ++ e),
   Event.stWarning "Verifique se sua chave GOOGLE_API_KEY está configurada corretamente no arquivo .env."]

/-- One script run's environment: what the external world would do during
this run.  `docsPages` is the content of the `docs` directory as page
records; `question` is the text-input value; `score` and `gen` are the
similarity and generation oracles; the two `fail` flags say whether an
external call raises during bootstrap (load/split/embed/persist) or during
answering (model construction, embedding, retrieval or generation). -/
structure Env where
  docsPages : List Document
  question : String
  score : String → Document → Nat
  gen : String → String
  bootstrapFails : Bool
  bootstrapErr : String
  answerFails : Bool
  answerErr : String

/-- Invariant of the `_merge_splits` loop state: the running total is the
sum of the current window's lengths, it never exceeds the chunk size, and
every emitted doc fits the chunk size. -/
def MergeInv (size : Nat) (st : MergeState) : Prop :=
  st.total = lenSum st.cur ∧ st.total ≤ size ∧ ∀ c ∈ st.docs, c.length ≤ size

/-- One top-to-bottom run of the script body inside the `try` at `app.py`
lines 70-110 (Streamlit re-runs this body on every interaction): call the
cached bootstrap, then, when the question is non-empty, build the chain and
answer; any raised exception is caught by the single outermost
`except Exception` handler, which renders the error events and ends the
interaction without crashing the process. -/
def runScript (env : Env) (s : AppState) : AppState × List Event :=
  match carregar_e_processar_documentos env.docsPages env.bootstrapFails env.bootstrapErr s with
  | Except.error e => (s, errorEvents e)
  | Except.ok (index, s1, evs, _ran) =>
      if env.question = "" then (s1, evs)
      else if env.answerFails then (s1, evs ++ errorEvents env.answerErr)
      else
        let res := qa_chain_run env.score env.gen index env.question
        (s1, evs ++ [Event.constructLLM, Event.retrieveCall, Event.generateCall] ++ answerEvents res)

/-- A tiny document used in concrete evaluations. -/
def sampleDoc : Document :=
  { page_content := ['a'], metaSource := some "docs/manual.pdf", metaPage := some 1 }

/-- A page-level document whose text is 1050 copies of the letter a:
splitting it produces two chunks (1000 and 150 characters). -/
def bigPage : Document :=
  { page_content := List.replicate 1050 'a', metaSource := some "docs/manual.pdf",
    metaPage := some 0 }

/-- A sample run environment used in concrete evaluations. -/
def sampleEnv : Env :=
  { docsPages := [], question := "q", score := fun _ _ => 0, gen := fun _ => "resp",
    bootstrapFails := false, bootstrapErr := "", answerFails := false, answerErr := "falha" }

/-! ## Lemmas: the merge step keeps every chunk within the size bound -/

theorem lenSum_nil : lenSum [] = 0 := rfl

theorem lenSum_cons (c : List Char) (cs : List (List Char)) :
    lenSum (c :: cs) = c.length + lenSum cs := by
  simp [lenSum]

theorem lenSum_append (a b : List (List Char)) :
    lenSum (a ++ b) = lenSum a + lenSum b := by
  simp [lenSum]

theorem length_dropWhile_le (p : Char → Bool) (l : List Char) :
    (l.dropWhile p).length ≤ l.length := by
  induction l with
  | nil => simp
  | cons c cs ih =>
    cases hp : p c
    · simp [List.dropWhile_cons, hp]
    · simp only [List.dropWhile_cons, hp, if_true, List.length_cons]
      exact Nat.le_trans ih (Nat.le_succ _)

theorem stripChars_length_le (l : List Char) : (stripChars l).length ≤ l.length := by
  unfold stripChars
  rw [List.length_reverse]
  refine Nat.le_trans (length_dropWhile_le _ _) ?_
  rw [List.length_reverse]
  exact length_dropWhile_le _ _

theorem joinDocs_length {cur : List (List Char)} {doc : List Char}
    (h : joinDocs cur = some doc) : doc.length ≤ lenSum cur := by
  unfold joinDocs at h
  by_cases he : stripChars cur.flatten = []
  · simp [he] at h
  · simp only [he, if_neg, if_false] at h
    cases h
    calc (stripChars cur.flatten).length ≤ cur.flatten.length := stripChars_length_le _
      _ = lenSum cur := by simp [List.length_flatten, lenSum]

theorem popWhile_spec (size overlap dlen : Nat) (cur : List (List Char)) :
    ∀ total, total = lenSum cur →
      (popWhile size overlap dlen total cur).1 = lenSum (popWhile size overlap dlen total cur).2 ∧
      ((popWhile size overlap dlen total cur).1 + dlen ≤ size ∨
        (popWhile size overlap dlen total cur).1 = 0) := by
  induction cur with
  | nil =>
    intro total h
    rw [lenSum_nil] at h
    subst h
    exact ⟨rfl, Or.inr rfl⟩
  | cons c cs ih =>
    intro total h
    rw [lenSum_cons] at h
    by_cases hc : overlap < total ∨ (size < total + dlen ∧ 0 < total)
    · have hrw : popWhile size overlap dlen total (c :: cs) =
          popWhile size overlap dlen (total - c.length) cs := by
        simp [popWhile, hc]
      rw [hrw]
      exact ih (total - c.length) (by omega)
    · have hrw : popWhile size overlap dlen total (c :: cs) = (total, c :: cs) := by
        simp [popWhile, hc]
      rw [hrw]
      push_neg at hc
      refine ⟨by rw [lenSum_cons]; omega, ?_⟩
      omega

theorem mergeStep_inv (size overlap : Nat) (st : MergeState) (d : List Char)
    (hd : d.length < size) (h : MergeInv size st) :
    MergeInv size (mergeStep size overlap st d) := by
  obtain ⟨htot, hle, hdocs⟩ := h
  by_cases h1 : size < st.total + d.length
  · by_cases h2 : st.cur = []
    · exfalso
      rw [htot, h2, lenSum_nil] at h1
      omega
    · have hps := popWhile_spec size overlap d.length st.cur st.total htot
      have hrw : mergeStep size overlap st d =
          { docs := (match joinDocs st.cur with
                     | some doc => st.docs ++ [doc]
                     | none => st.docs),
            cur := (popWhile size overlap d.length st.total st.cur).2 ++ [d],
            total := (popWhile size overlap d.length st.total st.cur).1 + d.length } := by
        simp [mergeStep, h1, h2]
      rw [hrw]
      refine ⟨?_, ?_, ?_⟩
      · dsimp only
        simp only [lenSum_append, lenSum_cons, lenSum_nil]
        omega
      · dsimp only
        rcases hps.2 with hcase | hcase <;> omega
      · intro c hc
        cases hj : joinDocs st.cur with
        | none => simp only [hj] at hc; exact hdocs c hc
        | some doc =>
          simp only [hj] at hc
          rcases List.mem_append.mp hc with hmem | hmem
          · exact hdocs c hmem
          · have : c = doc := by simpa using hmem
            subst this
            have := joinDocs_length hj
            omega
  · have hrw : mergeStep size overlap st d =
        { docs := st.docs, cur := st.cur ++ [d], total := st.total + d.length } := by
      simp [mergeStep, h1]
    rw [hrw]
    refine ⟨?_, by dsimp only; omega, hdocs⟩
    dsimp only
    simp only [lenSum_append, lenSum_cons, lenSum_nil]
    omega

theorem foldl_mergeStep_inv (size overlap : Nat) :
    ∀ (splits : List (List Char)) (st : MergeState),
      MergeInv size st → (∀ d ∈ splits, d.length < size) →
      MergeInv size (splits.foldl (mergeStep size overlap) st) := by
  intro splits
  induction splits with
  | nil => intro st h _; simpa using h
  | cons d ds ih =>
    intro st h hall
    rw [List.foldl_cons]
    exact ih _ (mergeStep_inv size overlap st d (hall d (List.mem_cons_self _ _)) h)
      (fun x hx => hall x (List.mem_cons_of_mem _ hx))

theorem mergeSplits_bound (size overlap : Nat) (splits : List (List Char))
    (h : ∀ d ∈ splits, d.length < size) :
    ∀ c ∈ mergeSplits size overlap splits, c.length ≤ size := by
  intro c hc
  have hinv := foldl_mergeStep_inv size overlap splits ⟨[], [], 0⟩
    ⟨by simp [lenSum_nil], Nat.zero_le _, by simp⟩ h
  obtain ⟨htot, hle, hdocs⟩ := hinv
  unfold mergeSplits at hc
  cases hj : joinDocs (splits.foldl (mergeStep size overlap) ⟨[], [], 0⟩).cur with
  | none => simp only [hj] at hc; exact hdocs c hc
  | some doc =>
    simp only [hj] at hc
    rcases List.mem_append.mp hc with hmem | hmem
    · exact hdocs c hmem
    · have : c = doc := by simpa using hmem
      subst this
      have := joinDocs_length hj
      omega

/-! ## Lemmas: every chunk of `_split_text` fits the size bound -/

theorem chooseSep_spec (text : List Char) :
    ∀ seps : List (List Char), [] ∈ seps →
      ((chooseSep text seps).1 = [] ∧ (chooseSep text seps).2 = []) ∨
      ((chooseSep text seps).2 ≠ [] ∧ [] ∈ (chooseSep text seps).2 ∧
        (chooseSep text seps).2.length < seps.length) := by
  intro seps
  induction seps with
  | nil => intro h; exact absurd h (List.not_mem_nil _)
  | cons s rest ih =>
    intro hmem
    by_cases hs : s = []
    · left
      constructor <;> simp [chooseSep, hs]
    · have hrest : [] ∈ rest := by
        rcases List.mem_cons.mp hmem with h | h
        · exact absurd h.symm hs
        · exact h
      by_cases hin : containsSeq s text = true
      · right
        have hrw : chooseSep text (s :: rest) = (s, rest) := by
          simp [chooseSep, hs, hin]
        rw [hrw]
        exact ⟨List.ne_nil_of_mem hrest, hrest, by simp⟩
      · have hrw : chooseSep text (s :: rest) = chooseSep text rest := by
          simp [chooseSep, hs, hin]
        rw [hrw]
        rcases ih hrest with h | h
        · exact Or.inl h
        · exact Or.inr ⟨h.1, h.2.1, Nat.lt_trans h.2.2 (by simp)⟩

theorem splitFold_bound (size overlap : Nat) (newSeps : List (List Char))
    (recur : List Char → List (List Char)) :
    ∀ (splits : List (List Char)) (acc : List (List Char) × List (List Char)),
      (∀ s ∈ splits, s.length < size ∨ (newSeps ≠ [] ∧ ∀ c ∈ recur s, c.length ≤ size)) →
      (∀ c ∈ acc.1, c.length ≤ size) → (∀ d ∈ acc.2, d.length < size) →
      (∀ c ∈ (splits.foldl (splitStep size overlap newSeps recur) acc).1, c.length ≤ size) ∧
      (∀ d ∈ (splits.foldl (splitStep size overlap newSeps recur) acc).2, d.length < size) := by
  intro splits
  induction splits with
  | nil => intro acc _ h1 h2; exact ⟨h1, h2⟩
  | cons s ss ih =>
    intro acc hall h1 h2
    rw [List.foldl_cons]
    have hs := hall s (List.mem_cons_self _ _)
    have hss : ∀ x ∈ ss, x.length < size ∨ (newSeps ≠ [] ∧ ∀ c ∈ recur x, c.length ≤ size) :=
      fun x hx => hall x (List.mem_cons_of_mem _ hx)
    by_cases hlen : s.length < size
    · have hrw : splitStep size overlap newSeps recur acc s = (acc.1, acc.2 ++ [s]) := by
        simp [splitStep, hlen]
      rw [hrw]
      refine ih _ hss h1 ?_
      intro d hd
      rcases List.mem_append.mp hd with hd | hd
      · exact h2 d hd
      · have : d = s := by simpa using hd
        subst this; exact hlen
    · rcases hs with hs | ⟨hne, hrec⟩
      · exact absurd hs hlen
      · have hfin : ∀ c ∈ (if acc.2 = [] then acc.1
            else acc.1 ++ mergeSplits size overlap acc.2), c.length ≤ size := by
          intro c hc
          by_cases hacc : acc.2 = []
          · rw [if_pos hacc] at hc; exact h1 c hc
          · rw [if_neg hacc] at hc
            rcases List.mem_append.mp hc with hc | hc
            · exact h1 c hc
            · exact mergeSplits_bound size overlap acc.2 h2 c hc
        have hrw : splitStep size overlap newSeps recur acc s =
            ((if acc.2 = [] then acc.1 else acc.1 ++ mergeSplits size overlap acc.2)
              ++ recur s, []) := by
          simp [splitStep, hlen, hne]
        rw [hrw]
        refine ih _ hss ?_ (by simp)
        intro c hc
        rcases List.mem_append.mp hc with hc | hc
        · exact hfin c hc
        · exact hrec c hc

theorem splitTextFuel_bound (size overlap : Nat) (hsize : 1 < size) :
    ∀ (fuel : Nat) (seps : List (List Char)) (text : List Char),
      seps.length ≤ fuel → [] ∈ seps →
      ∀ c ∈ splitTextFuel size overlap fuel seps text, c.length ≤ size := by
  intro fuel
  induction fuel with
  | zero =>
    intro seps text hlen hmem
    have : seps = [] := List.eq_nil_of_length_eq_zero (Nat.le_zero.mp hlen)
    subst this
    exact absurd hmem (List.not_mem_nil _)
  | succ fuel ih =>
    intro seps text hlen hmem c hc
    simp only [splitTextFuel] at hc
    have hall : ∀ s ∈ splitWithSep (chooseSep text seps).1 text,
        s.length < size ∨ ((chooseSep text seps).2 ≠ [] ∧
          ∀ x ∈ splitTextFuel size overlap fuel (chooseSep text seps).2 s, x.length ≤ size) := by
      rcases chooseSep_spec text seps hmem with ⟨h1, _⟩ | ⟨hne, hmem2, hlt⟩
      · intro s hsmem
        left
        rw [h1] at hsmem
        simp only [splitWithSep, if_pos rfl] at hsmem
        rcases List.mem_map.mp hsmem with ⟨a, _, rfl⟩
        simpa using hsize
      · intro s _
        right
        exact ⟨hne, fun x hx => ih (chooseSep text seps).2 s (by omega) hmem2 x hx⟩
    have := splitFold_bound size overlap (chooseSep text seps).2
      (splitTextFuel size overlap fuel (chooseSep text seps).2)
      (splitWithSep (chooseSep text seps).1 text) ([], [])
      hall (by simp) (by simp)
    obtain ⟨hfin, hgood⟩ := this
    by_cases hacc : ((splitWithSep (chooseSep text seps).1 text).foldl
        (splitStep size overlap (chooseSep text seps).2
          (splitTextFuel size overlap fuel (chooseSep text seps).2)) ([], [])).2 = []
    · rw [if_pos hacc] at hc
      exact hfin c hc
    · rw [if_neg hacc] at hc
      rcases List.mem_append.mp hc with hc | hc
      · exact hfin c hc
      · exact mergeSplits_bound size overlap _ hgood c hc

/-! ## Lemmas: closed-form splitting of a long single-word page

Used to exhibit a page whose splitting yields more chunks than pages: a
1050-character page with no separator characters splits into a
1000-character chunk and a 150-character chunk. -/

theorem lenSum_replicate (n : Nat) (c : Char) : lenSum (List.replicate n [c]) = n := by
  induction n with
  | zero => rfl
  | succ n ih =>
    rw [List.replicate_succ, lenSum_cons, ih]
    dsimp only [List.length_cons, List.length_nil]
    omega

theorem flatten_replicate_singleton (n : Nat) (c : Char) :
    (List.replicate n [c]).flatten = List.replicate n c := by
  induction n with
  | zero => rfl
  | succ n ih => rw [List.replicate_succ, List.replicate_succ, List.flatten_cons, ih]; rfl

theorem dropWhile_replicate_not (n : Nat) (c : Char) (hc : Char.isWhitespace c = false) :
    (List.replicate n c).dropWhile Char.isWhitespace = List.replicate n c := by
  cases n with
  | zero => rfl
  | succ n => rw [List.replicate_succ, List.dropWhile_cons, hc]; simp

theorem stripChars_replicate (n : Nat) (c : Char) (hc : Char.isWhitespace c = false) :
    stripChars (List.replicate n c) = List.replicate n c := by
  unfold stripChars
  rw [dropWhile_replicate_not n c hc, List.reverse_replicate,
    dropWhile_replicate_not n c hc, List.reverse_replicate]

theorem joinDocs_replicate (n : Nat) (c : Char) (hn : n ≠ 0)
    (hc : Char.isWhitespace c = false) :
    joinDocs (List.replicate n [c]) = some (List.replicate n c) := by
  unfold joinDocs
  rw [flatten_replicate_singleton, stripChars_replicate n c hc]
  simp [hn]

theorem containsSeq_replicate (x : Char) (rest : List Char) (c : Char) (hx : (x == c) = false) :
    ∀ n, containsSeq (x :: rest) (List.replicate n c) = false := by
  intro n
  induction n with
  | zero => rfl
  | succ n ih =>
    rw [List.replicate_succ]
    show (List.isPrefixOf (x :: rest) (c :: List.replicate n c) || _) = false
    rw [List.isPrefixOf, hx]
    simpa using ih

theorem popWhile_replicate (c : Char) :
    ∀ j, popWhile 1000 100 1 (100 + j) (List.replicate (100 + j) [c]) =
      (100, List.replicate 100 [c]) := by
  intro j
  induction j with
  | zero =>
    show popWhile 1000 100 1 100 (List.replicate 100 [c]) = _
    rw [List.replicate_succ]
    show popWhile 1000 100 1 100 ([c] :: List.replicate 99 [c]) = _
    rw [popWhile]
    simp
  | succ j ih =>
    have h1 : 100 + (j + 1) = (100 + j) + 1 := by omega
    rw [h1, List.replicate_succ]
    rw [popWhile]
    have hcond : 100 < 100 + j + 1 ∨ (1000 < 100 + j + 1 + 1 ∧ 0 < 100 + j + 1) := by omega
    rw [if_pos hcond]
    have h2 : 100 + j + 1 - ([c] : List Char).length = 100 + j := by simp
    rw [h2]
    exact ih

theorem foldl_mergeStep_fill (size overlap : Nat) (c : Char) :
    ∀ (k : Nat) (docs cur : List (List Char)) (total : Nat),
      total = lenSum cur → total + k ≤ size →
      (List.replicate k [c]).foldl (mergeStep size overlap) ⟨docs, cur, total⟩ =
        ⟨docs, cur ++ List.replicate k [c], total + k⟩ := by
  intro k
  induction k with
  | zero => intro docs cur total _ _; simp
  | succ k ih =>
    intro docs cur total htot hle
    rw [List.replicate_succ, List.foldl_cons]
    have hstep : mergeStep size overlap ⟨docs, cur, total⟩ [c] =
        ⟨docs, cur ++ [[c]], total + 1⟩ := by
      unfold mergeStep
      rw [if_neg (by dsimp only [List.length_cons, List.length_nil]; omega)]
      rfl
    rw [hstep]
    have := ih docs (cur ++ [[c]]) (total + 1)
      (by rw [lenSum_append, lenSum_cons, lenSum_nil, htot]; simp)
      (by omega)
    rw [this, List.append_assoc]
    have h3 : total + 1 + k = total + (k + 1) := by omega
    rw [h3]
    rfl

theorem foldl_splitStep_replicate (size overlap : Nat) (newSeps : List (List Char))
    (recur : List Char → List (List Char)) (c : Char) (hsize : 1 < size) :
    ∀ (n : Nat) (acc : List (List Char) × List (List Char)),
      (List.replicate n [c]).foldl (splitStep size overlap newSeps recur) acc =
        (acc.1, acc.2 ++ List.replicate n [c]) := by
  intro n
  induction n with
  | zero => intro acc; simp
  | succ n ih =>
    intro acc
    rw [List.replicate_succ, List.foldl_cons]
    have hstep : splitStep size overlap newSeps recur acc [c] = (acc.1, acc.2 ++ [[c]]) := by
      unfold splitStep
      rw [if_pos (by simpa using hsize)]
    rw [hstep, ih, List.append_assoc]
    rfl

theorem mergeStep_flushBigWord :
    mergeStep 1000 100 ⟨[], List.replicate 1000 ['a'], 1000⟩ ['a'] =
      ⟨[List.replicate 1000 'a'], List.replicate 101 ['a'], 101⟩ := by
  have hne : List.replicate 1000 (['a'] : List Char) ≠ [] := by
    refine List.ne_nil_of_length_pos ?_
    rw [List.length_replicate]
    omega
  have hp0 := popWhile_replicate 'a' 900
  have e1 : (100 : Nat) + 900 = 1000 := by norm_num
  rw [e1] at hp0
  have e2 : (['a'] : List Char).length = 1 := rfl
  unfold mergeStep
  rw [if_pos (by dsimp only [List.length_cons, List.length_nil]; omega)]
  rw [if_neg (by dsimp only; exact hne)]
  dsimp only
  rw [joinDocs_replicate 1000 'a' (by omega) (by decide)]
  rw [e2, hp0]
  dsimp only
  rw [List.nil_append, ← List.replicate_succ' 100]

theorem mergeSplits_bigWord :
    mergeSplits 1000 100 (List.replicate 1050 ['a']) =
      [List.replicate 1000 'a', List.replicate 150 'a'] := by
  unfold mergeSplits
  have hsplitrep : List.replicate 1050 (['a'] : List Char) =
      List.replicate 1000 ['a'] ++ ([['a']] ++ List.replicate 49 ['a']) := by
    have e : (1050 : Nat) = 1000 + (1 + 49) := by norm_num
    rw [e, List.replicate_add, List.replicate_add, List.replicate_one]
  rw [hsplitrep, List.foldl_append, List.foldl_append]
  have h1 : (List.replicate 1000 (['a'] : List Char)).foldl (mergeStep 1000 100)
      ⟨[], [], 0⟩ = ⟨[], List.replicate 1000 ['a'], 1000⟩ := by
    have h := foldl_mergeStep_fill 1000 100 'a' 1000 [] [] 0 rfl (by omega)
    rw [List.nil_append, Nat.zero_add] at h
    exact h
  rw [h1]
  have h2 : (([['a']] : List (List Char))).foldl (mergeStep 1000 100)
      ⟨[], List.replicate 1000 ['a'], 1000⟩ =
      ⟨[List.replicate 1000 'a'], List.replicate 101 ['a'], 101⟩ := by
    rw [List.foldl_cons, List.foldl_nil]
    exact mergeStep_flushBigWord
  rw [h2]
  have h3 : (List.replicate 49 (['a'] : List Char)).foldl (mergeStep 1000 100)
      ⟨[List.replicate 1000 'a'], List.replicate 101 ['a'], 101⟩ =
      ⟨[List.replicate 1000 'a'], List.replicate 150 ['a'], 150⟩ := by
    have h := foldl_mergeStep_fill 1000 100 'a' 49 [List.replicate 1000 'a']
      (List.replicate 101 ['a']) 101 (by rw [lenSum_replicate]) (by omega)
    rw [h, ← List.replicate_add]
  rw [h3]
  dsimp only
  rw [joinDocs_replicate 150 'a' (by omega) (by decide)]
  rfl

theorem divisor_texto_bigWord :
    divisor_texto_split_text (List.replicate 1050 'a') =
      [List.replicate 1000 'a', List.replicate 150 'a'] := by
  unfold divisor_texto_split_text split_text
  have hlen : defaultSeparators.length = 4 := rfl
  rw [hlen]
  show splitTextFuel 1000 100 (3 + 1) defaultSeparators (List.replicate 1050 'a') = _
  rw [splitTextFuel]
  have hch : chooseSep (List.replicate 1050 'a') defaultSeparators = ([], []) := by
    unfold defaultSeparators chooseSep
    rw [if_neg (by simp),
      if_neg (by rw [containsSeq_replicate '\n' ['\n'] 'a' (by decide) 1050]; exact Bool.false_ne_true)]
    unfold chooseSep
    rw [if_neg (by simp),
      if_neg (by rw [containsSeq_replicate '\n' [] 'a' (by decide) 1050]; exact Bool.false_ne_true)]
    unfold chooseSep
    rw [if_neg (by simp),
      if_neg (by rw [containsSeq_replicate ' ' [] 'a' (by decide) 1050]; exact Bool.false_ne_true)]
    unfold chooseSep
    rw [if_pos rfl]
  rw [hch]
  have hsw : splitWithSep [] (List.replicate 1050 'a') = List.replicate 1050 ['a'] := by
    unfold splitWithSep
    rw [if_pos rfl, List.map_replicate]
  dsimp only
  rw [hsw]
  rw [foldl_splitStep_replicate 1000 100 [] _ 'a' (by omega) 1050 ([], [])]
  have hne1050 : ([] : List (List Char)) ++ List.replicate 1050 ['a'] ≠ [] := by
    rw [List.nil_append]
    refine List.ne_nil_of_length_pos ?_
    rw [List.length_replicate]
    omega
  rw [if_neg hne1050]
  rw [List.nil_append, List.nil_append]
  exact mergeSplits_bigWord

/-! ## Lemmas: retrieval returns at most `k` chunks, all from the index -/

theorem mem_insertByScore (score : Document → Nat) (d x : Document) :
    ∀ l : List Document, x ∈ insertByScore score d l → x = d ∨ x ∈ l := by
  intro l
  induction l with
  | nil =>
    intro h
    unfold insertByScore at h
    simpa using h
  | cons a as ih =>
    intro h
    unfold insertByScore at h
    by_cases hc : score d ≤ score a
    · rw [if_pos hc] at h
      rcases List.mem_cons.mp h with h | h
      · exact Or.inr (List.mem_cons.mpr (Or.inl h))
      · rcases ih h with h | h
        · exact Or.inl h
        · exact Or.inr (List.mem_cons.mpr (Or.inr h))
    · rw [if_neg hc] at h
      rcases List.mem_cons.mp h with h | h
      · exact Or.inl h
      · exact Or.inr h

theorem mem_rankByScore (score : Document → Nat) (x : Document) :
    ∀ l : List Document, x ∈ rankByScore score l → x ∈ l := by
  intro l
  induction l with
  | nil =>
    intro h
    unfold rankByScore at h
    simp at h
  | cons a as ih =>
    intro h
    unfold rankByScore at h
    rcases mem_insertByScore score a x (rankByScore score as) h with h | h
    · exact List.mem_cons.mpr (Or.inl h)
    · exact List.mem_cons.mpr (Or.inr (ih h))

/-! ## Helper lemmas about the bootstrap and the script run -/

theorem cached_ok_cache (pages : List Document) (fail : Bool) (msg : String)
    (s : AppState) (idx : List Document) (s2 : AppState) (evs : List Event) (ran : Bool)
    (h : carregar_e_processar_documentos pages fail msg s = Except.ok (idx, s2, evs, ran)) :
    s2.cache = some idx := by
  unfold carregar_e_processar_documentos at h
  cases hc : s.cache with
  | some v =>
    rw [hc] at h
    simp only [Except.ok.injEq, Prod.mk.injEq] at h
    obtain ⟨hv, hs, _⟩ := h
    rw [← hs, hc, hv]
  | none =>
    rw [hc] at h
    by_cases hf : fail = true
    · rw [if_pos hf] at h
      exact absurd h (by simp)
    · rw [if_neg hf] at h
      simp only [Except.ok.injEq, Prod.mk.injEq] at h
      obtain ⟨hv, hs, _⟩ := h
      rw [← hs, hv]

theorem cached_ok_events (pages : List Document) (fail : Bool) (msg : String)
    (s : AppState) (idx : List Document) (s2 : AppState) (evs : List Event) (ran : Bool)
    (h : carregar_e_processar_documentos pages fail msg s = Except.ok (idx, s2, evs, ran)) :
    evs = [] ∨ evs = (carregarBody pages s.disk).2.2 := by
  unfold carregar_e_processar_documentos at h
  cases hc : s.cache with
  | some v =>
    rw [hc] at h
    simp only [Except.ok.injEq, Prod.mk.injEq] at h
    exact Or.inl h.2.2.1.symm
  | none =>
    rw [hc] at h
    by_cases hf : fail = true
    · rw [if_pos hf] at h
      exact absurd h (by simp)
    · rw [if_neg hf] at h
      simp only [Except.ok.injEq, Prod.mk.injEq] at h
      exact Or.inr h.2.2.1.symm

theorem carregarBody_event_cases (pages : List Document) (disk : Option (List Document))
    (e : Event) (h : e ∈ (carregarBody pages disk).2.2) :
    e = Event.stInfo "Carregando banco de dados de vetores existente..." ∨
    e = Event.stSuccess "Banco de dados carregado com sucesso!" ∨
    e = Event.stInfo "Criando um novo banco de dados de vetores..." ∨
    e = Event.loadPDFs ∨ e = Event.splitDocs ∨ e = Event.persistIndex ∨
    e = Event.stSuccess (novoBancoMsg pages.length) := by
  cases disk with
  | none => simp [carregarBody] at h; tauto
  | some contents => simp [carregarBody] at h; tauto

theorem sourcesEvents_length :
    ∀ docsList : List Document,
      (docsList.flatMap
        (fun d => [Event.stSourceInfo (renderSource d), Event.stExcerpt (excerptLine d)])).length =
        2 * docsList.length := by
  intro docsList
  induction docsList with
  | nil => rfl
  | cons d ds ih =>
    rw [List.flatMap_cons, List.length_append, ih]
    simp [Nat.mul_succ]
    omega

/-! ## Claim theorems -/

/-- C1: for every invocation of the bootstrap body
(`carregar_e_processar_documentos`, `app.py` lines 42-65), if the persist
directory `banco_vetorial_chroma` exists on disk then the existing index is
opened and returned with no document read (`loadPDFs` never happens) and no
write to durable storage (the disk state is returned unchanged); otherwise
the full ingestion pipeline runs (load from `docs`, split, embed, persist at
that path).  The directory's existence is the sole condition: the branch is
decided by matching on the disk state and nothing else. -/
theorem c1_branch_on_disk_existence :
    ∀ (pages : List Document) (disk : Option (List Document)),
      (∀ contents, disk = some contents →
        carregarBody pages disk =
          (contents, some contents,
           [Event.stInfo "Carregando banco de dados de vetores existente...",
            Event.stSuccess "Banco de dados carregado com sucesso!"]) ∧
        Event.loadPDFs ∉ (carregarBody pages disk).2.2 ∧
        Event.persistIndex ∉ (carregarBody pages disk).2.2) ∧
      (disk = none →
        carregarBody pages disk =
          (split_documents pages, some (split_documents pages),
           [Event.stInfo "Criando um novo banco de dados de vetores...",
            Event.loadPDFs, Event.splitDocs, Event.persistIndex,
            Event.stSuccess (novoBancoMsg pages.length)])) := by
  intro pages disk
  constructor
  · intro contents h
    subst h
    refine ⟨rfl, ?_, ?_⟩ <;> simp [carregarBody]
  · intro h
    subst h
    rfl

/-- Witness for C1: both branches evaluated at a concrete one-page library. -/
theorem c1_witness :
    (carregarBody [sampleDoc] (some [sampleDoc]) =
      ([sampleDoc], some [sampleDoc],
       [Event.stInfo "Carregando banco de dados de vetores existente...",
        Event.stSuccess "Banco de dados carregado com sucesso!"]) ∧
      Event.loadPDFs ∉ (carregarBody [sampleDoc] (some [sampleDoc])).2.2 ∧
      Event.persistIndex ∉ (carregarBody [sampleDoc] (some [sampleDoc])).2.2) ∧
    carregarBody [sampleDoc] none =
      (split_documents [sampleDoc], some (split_documents [sampleDoc]),
       [Event.stInfo "Criando um novo banco de dados de vetores...",
        Event.loadPDFs, Event.splitDocs, Event.persistIndex,
        Event.stSuccess (novoBancoMsg 1)]) :=
  ⟨(c1_branch_on_disk_existence [sampleDoc] (some [sampleDoc])).1 [sampleDoc] rfl,
   (c1_branch_on_disk_existence [sampleDoc] none).2 rfl⟩

/-- C2: for every question, the answering chain built at `app.py`
lines 87-95 (retriever `k = 3`, `return_source_documents=True`) cites at
most 3 source chunks, and every cited source is an element of the persisted
vector index. -/
theorem c2_sources_at_most_three_and_from_index :
    ∀ (score : String → Document → Nat) (gen : String → String)
      (index : List Document) (q : String),
      (qa_chain_run score gen index q).2.length ≤ 3 ∧
      ∀ d ∈ (qa_chain_run score gen index q).2, d ∈ index := by
  intro score gen index q
  constructor
  · show (retrieve score 3 index q).length ≤ 3
    unfold retrieve
    exact List.length_take_le 3 _
  · intro d hd
    have hd2 : d ∈ rankByScore (score q) index := List.take_subset _ _ hd
    exact mem_rankByScore (score q) d index hd2

/-- Witness for C2 at a concrete one-chunk index. -/
theorem c2_witness :
    (qa_chain_run (fun _ _ => 0) (fun _ => "resp") [sampleDoc] "q").2.length ≤ 3 ∧
    sampleDoc ∈ [sampleDoc] :=
  ⟨(c2_sources_at_most_three_and_from_index (fun _ _ => 0) (fun _ => "resp") [sampleDoc] "q").1,
   (c2_sources_at_most_three_and_from_index (fun _ _ => 0) (fun _ => "resp") [sampleDoc] "q").2
     sampleDoc (by decide)⟩

/-- C3: every chunk produced by the chunker configured at `app.py` line 56
(`chunk_size=1000`, `chunk_overlap=100`) has text length at most 1000.
With the default separator list, which ends in the empty separator, a text
is ultimately divisible down to single characters, so the claim's
exceptional case (an indivisible unit longer than 1000 kept whole) cannot
arise, and the bound holds for every chunk without exception. -/
theorem c3_chunk_length_le_1000 :
    ∀ (text : List Char), ∀ c ∈ divisor_texto_split_text text, c.length ≤ 1000 := by
  intro text c hc
  unfold divisor_texto_split_text split_text at hc
  exact splitTextFuel_bound 1000 100 (by omega) defaultSeparators.length defaultSeparators text
    (Nat.le_refl _) (by simp [defaultSeparators]) c hc

/-- Witness for C3 at a concrete two-character page. -/
theorem c3_witness :
    ['h', 'i'] ∈ divisor_texto_split_text ['h', 'i'] ∧
      (['h', 'i'] : List Char).length ≤ 1000 :=
  ⟨by decide, c3_chunk_length_le_1000 ['h', 'i'] ['h', 'i'] (by decide)⟩

/-- C4: within one process lifetime, the bootstrap body executes at most
once: after any successful invocation of the `@st.cache_resource`-wrapped
`carregar_e_processar_documentos`, every further invocation — whatever the
disk, documents, or failure flags of that later moment — returns the cached
vector-index handle, leaves the state unchanged, performs no events, and
reports that the body did not run. -/
theorem c4_bootstrap_body_at_most_once :
    ∀ (pages : List Document) (fail : Bool) (msg : String) (s : AppState)
      (pages2 : List Document) (fail2 : Bool) (msg2 : String)
      (idx : List Document) (s2 : AppState) (evs : List Event) (ran : Bool),
      carregar_e_processar_documentos pages fail msg s = Except.ok (idx, s2, evs, ran) →
      carregar_e_processar_documentos pages2 fail2 msg2 s2 = Except.ok (idx, s2, [], false) := by
  intro pages fail msg s pages2 fail2 msg2 idx s2 evs ran h
  have hc := cached_ok_cache pages fail msg s idx s2 evs ran h
  unfold carregar_e_processar_documentos
  rw [hc]

/-- Witness for C4: a first call that loads an existing index, then the
memoized second call. -/
theorem c4_witness :
    carregar_e_processar_documentos [] false "" ⟨some [sampleDoc], some [sampleDoc]⟩ =
      Except.ok ([sampleDoc], ⟨some [sampleDoc], some [sampleDoc]⟩, [], false) :=
  c4_bootstrap_body_at_most_once [] false "" ⟨none, some [sampleDoc]⟩ [] false ""
    [sampleDoc] ⟨some [sampleDoc], some [sampleDoc]⟩
    [Event.stInfo "Carregando banco de dados de vetores existente...",
     Event.stSuccess "Banco de dados carregado com sucesso!"] true rfl

/-- C5: the bootstrap is idempotent across runs: starting with no persisted
directory, a first (fresh-process) run ingests and persists
`split_documents pages`; a second fresh run against the resulting disk takes
the load-existing branch (its events are exactly the two loading messages,
with no ingestion events) and returns an index with identical chunk
contents. -/
theorem c5_bootstrap_idempotent_across_runs :
    ∀ pages : List Document,
      (carregarBody pages none).1 = split_documents pages ∧
      carregarBody pages (carregarBody pages none).2.1 =
        ((carregarBody pages none).1, (carregarBody pages none).2.1,
         [Event.stInfo "Carregando banco de dados de vetores existente...",
          Event.stSuccess "Banco de dados carregado com sucesso!"]) := by
  intro pages
  exact ⟨rfl, rfl⟩

/-- C6: every failure raised in the pipeline (bootstrap or answering) is
caught at the single outermost `try/except` boundary (`app.py`
lines 107-110): the raw underlying message is displayed
(`Detalhe do erro: ...`), together with the remediation hint naming the
`GOOGLE_API_KEY` credential; the run ends gracefully with the handler's
events (the script function returns normally, so the process does not
crash), and no answer — partial or otherwise — is rendered.  The hypothesis
is exactly "some failure fires during this run": a bootstrap failure on a
cold cache (with any question, empty included — the canonical startup
credential error), or an answering failure on a non-empty question after a
successful bootstrap (warm cache, or cold cache with ingestion/load
succeeding). -/
theorem c6_failures_caught_and_reported :
    ∀ (env : Env) (s : AppState),
      ((s.cache = none ∧ env.bootstrapFails = true) ∨
       (env.question ≠ "" ∧ env.answerFails = true ∧
         (s.cache ≠ none ∨ env.bootstrapFails = false))) →
      ∃ pre err,
        (err = env.bootstrapErr ∨ err = env.answerErr) ∧
        (runScript env s).2 = pre ++ errorEvents err ∧
        Event.stError ("Detalhe do erro: " ++ err) ∈ (runScript env s).2 ∧
        Event.stWarning
            "Verifique se sua chave GOOGLE_API_KEY está configurada corretamente no arquivo .env."
          ∈ (runScript env s).2 ∧
        (∀ m, Event.stWrite m ∉ (runScript env s).2) ∧
        (∀ m, Event.stHeader m ∉ (runScript env s).2) := by
  intro env s hfail
  rcases hfail with ⟨hcache, hb⟩ | ⟨hq, ha, hok⟩
  · have hboot : carregar_e_processar_documentos env.docsPages env.bootstrapFails
        env.bootstrapErr s = Except.error env.bootstrapErr := by
      unfold carregar_e_processar_documentos
      rw [hcache]
      dsimp only
      rw [if_pos hb]
    have hrun : runScript env s = (s, errorEvents env.bootstrapErr) := by
      unfold runScript
      rw [hboot]
    refine ⟨[], env.bootstrapErr, Or.inl rfl, ?_, ?_, ?_, ?_, ?_⟩
    · rw [hrun, List.nil_append]
    · rw [hrun]; simp [errorEvents]
    · rw [hrun]; simp [errorEvents]
    · intro m; rw [hrun]; simp [errorEvents]
    · intro m; rw [hrun]; simp [errorEvents]
  · cases hc : s.cache with
    | some v =>
      have hboot : carregar_e_processar_documentos env.docsPages env.bootstrapFails
          env.bootstrapErr s = Except.ok (v, s, [], false) := by
        unfold carregar_e_processar_documentos
        rw [hc]
      have hrun : runScript env s = (s, errorEvents env.answerErr) := by
        unfold runScript
        rw [hboot]
        dsimp only
        rw [if_neg hq, ha]
        rfl
      refine ⟨[], env.answerErr, Or.inr rfl, ?_, ?_, ?_, ?_, ?_⟩
      · rw [hrun, List.nil_append]
      · rw [hrun]; simp [errorEvents]
      · rw [hrun]; simp [errorEvents]
      · intro m; rw [hrun]; simp [errorEvents]
      · intro m; rw [hrun]; simp [errorEvents]
    | none =>
      have hbf : env.bootstrapFails = false := by
        rcases hok with h | h
        · exact absurd hc h
        · exact h
      have hboot : carregar_e_processar_documentos env.docsPages env.bootstrapFails
          env.bootstrapErr s =
          Except.ok ((carregarBody env.docsPages s.disk).1,
            { cache := some (carregarBody env.docsPages s.disk).1,
              disk := (carregarBody env.docsPages s.disk).2.1 },
            (carregarBody env.docsPages s.disk).2.2, true) := by
        unfold carregar_e_processar_documentos
        rw [hc]
        dsimp only
        rw [hbf]
        rfl
      have hrun : runScript env s =
          ({ cache := some (carregarBody env.docsPages s.disk).1,
             disk := (carregarBody env.docsPages s.disk).2.1 },
           (carregarBody env.docsPages s.disk).2.2 ++ errorEvents env.answerErr) := by
        unfold runScript
        rw [hboot]
        dsimp only
        rw [if_neg hq, ha]
        rfl
      refine ⟨(carregarBody env.docsPages s.disk).2.2, env.answerErr, Or.inr rfl, ?_, ?_, ?_, ?_, ?_⟩
      · rw [hrun]
      · rw [hrun]; simp [errorEvents]
      · rw [hrun]; simp [errorEvents]
      · intro m
        rw [hrun]
        dsimp only
        intro hmem
        rcases List.mem_append.mp hmem with hmem | hmem
        · rcases carregarBody_event_cases _ _ _ hmem with h|h|h|h|h|h|h <;> exact Event.noConfusion h
        · simp [errorEvents] at hmem
      · intro m
        rw [hrun]
        dsimp only
        intro hmem
        rcases List.mem_append.mp hmem with hmem | hmem
        · rcases carregarBody_event_cases _ _ _ hmem with h|h|h|h|h|h|h <;> exact Event.noConfusion h
        · simp [errorEvents] at hmem

/-- Witness for C6: the canonical startup credential failure (bootstrap
fails with the question still empty) and a warm-cache answering failure,
both at concrete environments. -/
theorem c6_witness :
    (∃ pre err,
      (err = "sem chave" ∨ err = "falha") ∧
      (runScript
        { sampleEnv with question := "", bootstrapFails := true, bootstrapErr := "sem chave" }
        ⟨none, none⟩).2 = pre ++ errorEvents err ∧
      Event.stError ("Detalhe do erro: " ++ err) ∈
        (runScript
          { sampleEnv with question := "", bootstrapFails := true, bootstrapErr := "sem chave" }
          ⟨none, none⟩).2 ∧
      Event.stWarning
          "Verifique se sua chave GOOGLE_API_KEY está configurada corretamente no arquivo .env."
        ∈ (runScript
            { sampleEnv with question := "", bootstrapFails := true, bootstrapErr := "sem chave" }
            ⟨none, none⟩).2 ∧
      (∀ m, Event.stWrite m ∉
        (runScript
          { sampleEnv with question := "", bootstrapFails := true, bootstrapErr := "sem chave" }
          ⟨none, none⟩).2) ∧
      (∀ m, Event.stHeader m ∉
        (runScript
          { sampleEnv with question := "", bootstrapFails := true, bootstrapErr := "sem chave" }
          ⟨none, none⟩).2)) ∧
    (∃ pre err,
      (err = "" ∨ err = "falha") ∧
      (runScript { sampleEnv with answerFails := true }
        ⟨some [sampleDoc], some [sampleDoc]⟩).2 = pre ++ errorEvents err ∧
      Event.stError ("Detalhe do erro: " ++ err) ∈
        (runScript { sampleEnv with answerFails := true }
          ⟨some [sampleDoc], some [sampleDoc]⟩).2 ∧
      Event.stWarning
          "Verifique se sua chave GOOGLE_API_KEY está configurada corretamente no arquivo .env."
        ∈ (runScript { sampleEnv with answerFails := true }
            ⟨some [sampleDoc], some [sampleDoc]⟩).2 ∧
      (∀ m, Event.stWrite m ∉
        (runScript { sampleEnv with answerFails := true }
          ⟨some [sampleDoc], some [sampleDoc]⟩).2) ∧
      (∀ m, Event.stHeader m ∉
        (runScript { sampleEnv with answerFails := true }
          ⟨some [sampleDoc], some [sampleDoc]⟩).2)) :=
  ⟨c6_failures_caught_and_reported
      { sampleEnv with question := "", bootstrapFails := true, bootstrapErr := "sem chave" }
      ⟨none, none⟩ (Or.inl ⟨rfl, rfl⟩),
   c6_failures_caught_and_reported { sampleEnv with answerFails := true }
      ⟨some [sampleDoc], some [sampleDoc]⟩ (Or.inr ⟨by decide, rfl, Or.inr rfl⟩)⟩

/-- C7: a failure while answering one question is fatal for that question
only.  For any run whose bootstrap call succeeds — warm cache (the typical
case: the memoized handle is returned) or a cold cache whose body runs —
and whose answering then fails: the run renders only the bootstrap events
plus the error events and no answer, the cache holds the index handle, and
a subsequent run with a working environment answers normally without
re-executing the bootstrap body (its events begin directly with the
answering pipeline, and the cached index handle is the one reused). -/
theorem c7_answer_failure_fatal_for_question_only :
    ∀ (env1 env2 : Env) (s : AppState) (idx : List Document) (s1 : AppState)
      (evs1 : List Event) (ran : Bool),
      carregar_e_processar_documentos env1.docsPages env1.bootstrapFails env1.bootstrapErr s =
        Except.ok (idx, s1, evs1, ran) →
      env1.question ≠ "" → env1.answerFails = true →
      env2.question ≠ "" → env2.answerFails = false →
      runScript env1 s = (s1, evs1 ++ errorEvents env1.answerErr) ∧
      (∀ m, Event.stWrite m ∉ (runScript env1 s).2) ∧
      s1.cache = some idx ∧
      runScript env2 s1 =
        (s1, [Event.constructLLM, Event.retrieveCall, Event.generateCall] ++
          answerEvents (qa_chain_run env2.score env2.gen idx env2.question)) ∧
      Event.stWrite (qa_chain_run env2.score env2.gen idx env2.question).1 ∈
        (runScript env2 s1).2 ∧
      Event.loadPDFs ∉ (runScript env2 s1).2 := by
  intro env1 env2 s idx s1 evs1 ran hboot1 hq1 ha1 hq2 ha2
  have hrun1 : runScript env1 s = (s1, evs1 ++ errorEvents env1.answerErr) := by
    unfold runScript
    rw [hboot1]
    dsimp only
    rw [if_neg hq1, ha1]
    rfl
  have hcache1 : s1.cache = some idx :=
    cached_ok_cache env1.docsPages env1.bootstrapFails env1.bootstrapErr s idx s1 evs1 ran hboot1
  have hboot2 : carregar_e_processar_documentos env2.docsPages env2.bootstrapFails
      env2.bootstrapErr s1 = Except.ok (idx, s1, [], false) := by
    unfold carregar_e_processar_documentos
    rw [hcache1]
  have hrun2 : runScript env2 s1 =
      (s1, [Event.constructLLM, Event.retrieveCall, Event.generateCall] ++
        answerEvents (qa_chain_run env2.score env2.gen idx env2.question)) := by
    unfold runScript
    rw [hboot2]
    dsimp only
    rw [if_neg hq2, ha2]
    rfl
  refine ⟨hrun1, ?_, hcache1, hrun2, ?_, ?_⟩
  · intro m
    rw [hrun1]
    dsimp only
    intro hmem
    rcases List.mem_append.mp hmem with hmem | hmem
    · rcases cached_ok_events env1.docsPages env1.bootstrapFails env1.bootstrapErr s
          idx s1 evs1 ran hboot1 with hevs | hevs
      · rw [hevs] at hmem
        simp at hmem
      · rw [hevs] at hmem
        rcases carregarBody_event_cases _ _ _ hmem with h|h|h|h|h|h|h <;> exact Event.noConfusion h
    · simp [errorEvents] at hmem
  · rw [hrun2]
    simp [answerEvents]
  · rw [hrun2]
    simp [answerEvents]

/-- Witness for C7: a failing question on a warm cache (the bootstrap call
is the memoized one, returning the cached handle with no events), followed
by a successful question against the same cached index. -/
theorem c7_witness :
    runScript { sampleEnv with answerFails := true } ⟨some [sampleDoc], some [sampleDoc]⟩ =
      (⟨some [sampleDoc], some [sampleDoc]⟩, errorEvents "falha") ∧
    runScript sampleEnv ⟨some [sampleDoc], some [sampleDoc]⟩ =
      (⟨some [sampleDoc], some [sampleDoc]⟩,
       [Event.constructLLM, Event.retrieveCall, Event.generateCall] ++
         answerEvents (qa_chain_run sampleEnv.score sampleEnv.gen [sampleDoc] "q")) :=
  ⟨(c7_answer_failure_fatal_for_question_only { sampleEnv with answerFails := true }
      sampleEnv ⟨some [sampleDoc], some [sampleDoc]⟩ [sampleDoc]
      ⟨some [sampleDoc], some [sampleDoc]⟩ [] false rfl (by decide) rfl (by decide) rfl).1,
   (c7_answer_failure_fatal_for_question_only { sampleEnv with answerFails := true }
      sampleEnv ⟨some [sampleDoc], some [sampleDoc]⟩ [sampleDoc]
      ⟨some [sampleDoc], some [sampleDoc]⟩ [] false rfl (by decide) rfl (by decide) rfl).2.2.2.1⟩

/-- C8: when the question input is the empty string (`if pergunta_usuario:`
is falsy at `app.py` line 79), no answering step runs: no generative model
is constructed, no retrieval and no generation happen, and no answer is
rendered; only the bootstrap result is held. -/
theorem c8_empty_question_skips_answering :
    ∀ (env : Env) (s : AppState), env.question = "" →
      Event.constructLLM ∉ (runScript env s).2 ∧
      Event.retrieveCall ∉ (runScript env s).2 ∧
      Event.generateCall ∉ (runScript env s).2 ∧
      (∀ m, Event.stWrite m ∉ (runScript env s).2) ∧
      (∀ m, Event.stHeader m ∉ (runScript env s).2) := by
  intro env s hq
  cases hcache : s.cache with
  | some v =>
    have hboot : carregar_e_processar_documentos env.docsPages env.bootstrapFails
        env.bootstrapErr s = Except.ok (v, s, [], false) := by
      unfold carregar_e_processar_documentos
      rw [hcache]
    have hrun : runScript env s = (s, []) := by
      unfold runScript
      rw [hboot]
      dsimp only
      rw [if_pos hq]
    refine ⟨by simp [hrun], by simp [hrun], by simp [hrun],
      fun m => by simp [hrun], fun m => by simp [hrun]⟩
  | none =>
    cases hbf : env.bootstrapFails with
    | true =>
      have hboot : carregar_e_processar_documentos env.docsPages env.bootstrapFails
          env.bootstrapErr s = Except.error env.bootstrapErr := by
        unfold carregar_e_processar_documentos
        rw [hcache]
        dsimp only
        rw [if_pos hbf]
      have hrun : runScript env s = (s, errorEvents env.bootstrapErr) := by
        unfold runScript
        rw [hboot]
      refine ⟨by simp [hrun, errorEvents], by simp [hrun, errorEvents],
        by simp [hrun, errorEvents], fun m => by simp [hrun, errorEvents],
        fun m => by simp [hrun, errorEvents]⟩
    | false =>
      have hboot : carregar_e_processar_documentos env.docsPages env.bootstrapFails
          env.bootstrapErr s =
          Except.ok ((carregarBody env.docsPages s.disk).1,
            { cache := some (carregarBody env.docsPages s.disk).1,
              disk := (carregarBody env.docsPages s.disk).2.1 },
            (carregarBody env.docsPages s.disk).2.2, true) := by
        unfold carregar_e_processar_documentos
        rw [hcache]
        dsimp only
        rw [hbf]
        rfl
      have hrun : runScript env s =
          ({ cache := some (carregarBody env.docsPages s.disk).1,
             disk := (carregarBody env.docsPages s.disk).2.1 },
           (carregarBody env.docsPages s.disk).2.2) := by
        unfold runScript
        rw [hboot]
        dsimp only
        rw [if_pos hq]
      have hgen : ∀ e : Event, e ∈ (runScript env s).2 →
          e = Event.stInfo "Carregando banco de dados de vetores existente..." ∨
          e = Event.stSuccess "Banco de dados carregado com sucesso!" ∨
          e = Event.stInfo "Criando um novo banco de dados de vetores..." ∨
          e = Event.loadPDFs ∨ e = Event.splitDocs ∨ e = Event.persistIndex ∨
          e = Event.stSuccess (novoBancoMsg env.docsPages.length) := by
        intro e hmem
        rw [hrun] at hmem
        exact carregarBody_event_cases env.docsPages s.disk e hmem
      refine ⟨?_, ?_, ?_, ?_, ?_⟩
      · intro hmem
        rcases hgen _ hmem with h|h|h|h|h|h|h <;> exact Event.noConfusion h
      · intro hmem
        rcases hgen _ hmem with h|h|h|h|h|h|h <;> exact Event.noConfusion h
      · intro hmem
        rcases hgen _ hmem with h|h|h|h|h|h|h <;> exact Event.noConfusion h
      · intro m hmem
        rcases hgen _ hmem with h|h|h|h|h|h|h <;> exact Event.noConfusion h
      · intro m hmem
        rcases hgen _ hmem with h|h|h|h|h|h|h <;> exact Event.noConfusion h

/-- Witness for C8: the empty question at a concrete environment. -/
theorem c8_witness :
    Event.constructLLM ∉ (runScript { sampleEnv with question := "" } ⟨none, none⟩).2 ∧
    Event.stWrite "resp" ∉ (runScript { sampleEnv with question := "" } ⟨none, none⟩).2 :=
  ⟨(c8_empty_question_skips_answering { sampleEnv with question := "" } ⟨none, none⟩ rfl).1,
   (c8_empty_question_skips_answering { sampleEnv with question := "" }
      ⟨none, none⟩ rfl).2.2.2.1 "resp"⟩

/-- C9: the success message shown after creating a fresh index (`app.py`
line 65) reports `len(documentos)`, the number of loaded page-level
documents — not the number of chunks persisted into the index, which is
`(split_documents pages).length`; whenever splitting produces more chunks
than pages the two counts differ. -/
theorem c9_message_reports_page_count :
    ∀ pages : List Document,
      Event.stSuccess (novoBancoMsg pages.length) ∈ (carregarBody pages none).2.2 ∧
      (carregarBody pages none).1 = split_documents pages ∧
      ((split_documents pages).length > pages.length →
        pages.length ≠ (split_documents pages).length) := by
  intro pages
  refine ⟨by simp [carregarBody], rfl, by omega⟩

/-- Witness for C9: a one-page library whose page splits into two chunks,
so the message's count (1) differs from the persisted chunk count (2). -/
theorem c9_witness :
    Event.stSuccess (novoBancoMsg 1) ∈ (carregarBody [bigPage] none).2.2 ∧
    (1 : Nat) ≠ (split_documents [bigPage]).length :=
  ⟨(c9_message_reports_page_count [bigPage]).1,
   (c9_message_reports_page_count [bigPage]).2.2 (by
      have h2 : (split_documents [bigPage]).length = 2 := by
        unfold split_documents bigPage
        rw [List.flatMap_cons, List.flatMap_nil, List.append_nil]
        dsimp only
        rw [divisor_texto_bigWord]
        rfl
      rw [h2]
      simp)⟩

/-- Counterexample for C10: for a document whose metadata lacks `'source'`
but has `'page'` 2, the rendered source line is `Fonte: A, Página: 2` — the
`'N/A'` placeholder is passed through `os.path.basename`, which cuts at its
`/` and leaves only `A`; the string `N/A` appears nowhere in the line. -/
theorem c10_counterexample :
    renderSource ⟨['a'], none, some 2⟩ = "Fonte: A, Página: 2" ∧
    containsSeq ['N', '/', 'A'] (renderSource ⟨['a'], none, some 2⟩).data = false := by
  constructor <;> decide

/-- C10 (amended): rendering the sources panel (`app.py` lines 102-105) is
total — no missing metadata key raises.  A document missing the `'page'`
key renders `N/A` in place of the page number; a document missing the
`'source'` key renders `A` in place of the filename (the `'N/A'` default
passed through `os.path.basename`, which strips everything up to the `/`);
and every retrieved document is rendered (one source line and one excerpt
each, so the answer panel always has `2 + 2 * (number of cited documents)`
elements). -/
theorem c10_missing_metadata_rendering :
    ∀ d : Document,
      (d.metaSource = none →
        renderSource d = "Fonte: A, Página: " ++ pageDisplay d.metaPage) ∧
      (d.metaPage = none →
        renderSource d =
          "Fonte: " ++ basename (Option.getD d.metaSource "N/A") ++ ", Página: " ++ "N/A") ∧
      (∀ res : String × List Document, (answerEvents res).length = 2 + 2 * res.2.length) := by
  intro d
  refine ⟨?_, ?_, ?_⟩
  · intro h
    unfold renderSource
    rw [h]
    rw [show basename (Option.getD none "N/A") = "A" from by decide]
    rw [show ("Fonte: " ++ "A") ++ ", Página: " = "Fonte: A, Página: " from by decide]
  · intro h
    unfold renderSource
    rw [h]
    rfl
  · intro res
    unfold answerEvents
    rw [List.length_append, sourcesEvents_length]
    rfl

/-- Witness for C10: a cited document with no metadata at all renders with
the two fallback fields and still contributes its two panel entries. -/
theorem c10_witness :
    renderSource ⟨['a'], none, none⟩ =
      "Fonte: A, Página: " ++ pageDisplay (none : Option Nat) ∧
    (answerEvents ("resp", [⟨['a'], none, none⟩])).length =
      2 + 2 * ([⟨['a'], none, none⟩] : List Document).length :=
  ⟨(c10_missing_metadata_rendering ⟨['a'], none, none⟩).1 rfl,
   (c10_missing_metadata_rendering ⟨['a'], none, none⟩).2.2 ("resp", [⟨['a'], none, none⟩])⟩

end ManualIA
